import Mathlib

/-!
Verification of the diagram-layout core of `app.py` (AI Learning Roadmap
Generator).  The Python source is shallowly embedded: pure functions become
Lean functions, dict lookups become `Option`-valued lookups (a missing key,
which raises `KeyError` in Python, becomes `none`), and the drawing calls of
one render pass are recorded as the data they would paint (rectangles, arrow
endpoints, canvas size) rather than as pixel mutations.  Machine integers are
modelled as `Int`/`Nat` (Python integers are unbounded, so no wrap-around is
involved); Python floor division `//` is `Int.fdiv`.
-/

namespace Roadmap

/-!
## Model of `textwrap.wrap(text, width)` (CPython, default options)

`app.py` calls `textwrap.wrap(s, 38)` with all options at their defaults:
`expand_tabs=True`, `replace_whitespace=True`, `drop_whitespace=True`,
`break_long_words=True`, `break_on_hyphens=True`, empty indents, no
`max_lines`.  The model below follows CPython's `TextWrapper`:
`_munge_whitespace` (tab expansion, whitespace replacement), chunk
splitting, and `_wrap_chunks` with `_handle_long_word` (including its
hyphen search).  One simplification: chunk splitting separates whitespace
runs from non-whitespace runs (the `wordsep_simple_re` behaviour) and does
not additionally cut non-whitespace runs after internal hyphens as the full
`wordsep_re` does; that refinement only changes which hyphenated fragments
share a line and touches none of the properties proved here (line lengths
never exceed the width bound either way, and the inputs of every concrete
evaluation below contain no hyphen).  Whitespace is the ASCII whitespace
set used by `textwrap` itself.
-/

/-- The whitespace characters of `textwrap`: `'\t\n\x0b\x0c\r '`. -/
def isPyWs (c : Char) : Bool :=
  c == ' ' || c == '\t' || c == '\n' || c == Char.ofNat 11 ||
    c == Char.ofNat 12 || c == '\r'

/-- `str.expandtabs()` with the default tab size 8: each tab becomes the
spaces needed to reach the next multiple of 8; newline and carriage return
reset the column. -/
def expandTabsFrom : Nat → List Char → List Char
  | _, [] => []
  | col, c :: cs =>
    if c = '\t' then
      List.replicate (8 - col % 8) ' ' ++ expandTabsFrom (col + (8 - col % 8)) cs
    else if c = '\n' ∨ c = '\r' then c :: expandTabsFrom 0 cs
    else c :: expandTabsFrom (col + 1) cs

/-- `TextWrapper._munge_whitespace`: expand tabs, then replace every
whitespace character by a single space. -/
def munge (l : List Char) : List Char :=
  (expandTabsFrom 0 l).map (fun c => if isPyWs c then ' ' else c)

/-- Split a munged character list into maximal runs of whitespace and
non-whitespace characters, in order (the chunk list handed to
`_wrap_chunks`; empty pieces do not arise): each character either joins
the following run, when it has the same whitespace class as that run's
first character, or opens a run of its own. -/
def splitChunks : List Char → List (List Char)
  | [] => []
  | c :: cs =>
    match splitChunks cs with
    | (d :: run) :: rest =>
      if isPyWs c == isPyWs d then (c :: d :: run) :: rest
      else [c] :: (d :: run) :: rest
    | chunks => [c] :: chunks

/-- Total character count of a chunk list. -/
def sumLen (cs : List (List Char)) : Nat := (cs.map List.length).sum

/-- `chunk.strip() == ''`: the chunk is entirely whitespace. -/
def isWsChunk (c : List Char) : Bool := c.all isPyWs

/-- The inner `while` of `_wrap_chunks`: move chunks onto the current line
while the accumulated length stays within the width. -/
def takeGreedy (width : Nat) (curLen : Nat) :
    List (List Char) → List (List Char) × List (List Char)
  | [] => ([], [])
  | c :: rest =>
    if curLen + c.length ≤ width then
      let r := takeGreedy width (curLen + c.length) rest
      (c :: r.1, r.2)
    else ([], c :: rest)

/-- `chunk.rfind('-', 0, stop)`: the largest index `< stop` holding `'-'`,
if any. -/
def rfindHyphen (l : List Char) : Option Nat :=
  (List.range l.length).reverse.find? (fun i => l.getD i ' ' == '-')

/-- The cut position chosen by `_handle_long_word` for a chunk that does not
fit: normally `space_left` characters, but with `break_on_hyphens` the cut
moves to just after the last hyphen before `space_left` when that hyphen has
a non-hyphen character somewhere before it. -/
def longWordEnd (chunk : List Char) (spaceLeft : Nat) : Nat :=
  if spaceLeft < chunk.length then
    match rfindHyphen (chunk.take spaceLeft) with
    | some h =>
      if 0 < h ∧ (chunk.take h).any (fun c => ¬ (c = '-')) then h + 1 else spaceLeft
    | none => spaceLeft
  else spaceLeft

/-- `if self.drop_whitespace and chunks[-1].strip() == '' and lines: del
chunks[-1]` — discard a leading all-whitespace chunk once at least one line
has been produced. -/
def dropLeadingWs (hasLines : Bool) (chunks : List (List Char)) :
    List (List Char) :=
  match chunks with
  | c :: rest => if hasLines && isWsChunk c then rest else chunks
  | [] => []

/-- `_handle_long_word`: when the next chunk is longer than the whole width,
break it and put the head fragment on the current line. -/
def handleLongWord (width : Nat) (cur : List (List Char))
    (rest : List (List Char)) : List (List Char) × List (List Char) :=
  match rest with
  | c :: rs =>
    if width < c.length then
      let spaceLeft := if width < 1 then 1 else width - sumLen cur
      let e := longWordEnd c spaceLeft
      (cur ++ [c.take e], c.drop e :: rs)
    else (cur, rest)
  | [] => (cur, [])

/-- `if self.drop_whitespace and cur_line and cur_line[-1].strip() == '':
del cur_line[-1]` — drop one trailing all-whitespace chunk from the line. -/
def dropTrailingWs (cur : List (List Char)) : List (List Char) :=
  match cur.getLast? with
  | some c => if isWsChunk c then cur.dropLast else cur
  | none => cur

/-- One iteration of the outer `while chunks` loop of `_wrap_chunks`:
returns the line emitted by this iteration (if any) and the remaining
chunks. -/
def wrapStep (width : Nat) (hasLines : Bool) (chunks : List (List Char)) :
    Option (List Char) × List (List Char) :=
  let chunks1 := dropLeadingWs hasLines chunks
  let g := takeGreedy width 0 chunks1
  let h := handleLongWord width g.1 g.2
  let cur := dropTrailingWs h.1
  (if cur.isEmpty then none else some cur.flatten, h.2)

/-- The outer loop of `_wrap_chunks`, driven by fuel (each iteration of the
Python loop strictly consumes chunk material, so the generous fuel supplied
by `pyWrap` is never exhausted). -/
def wrapChunksFuel (width : Nat) : Nat → Bool → List (List Char) → List (List Char)
  | 0, _, _ => []
  | _ + 1, _, [] => []
  | fuel + 1, hasLines, c :: cs =>
    let r := wrapStep width hasLines (c :: cs)
    match r.1 with
    | some line => line :: wrapChunksFuel width fuel true r.2
    | none => wrapChunksFuel width fuel hasLines r.2

/-- `textwrap.wrap(text, width)` with the default options used by `app.py`.
The result is the list of output lines, each a character list. -/
def pyWrap (width : Nat) (text : String) : List (List Char) :=
  let chunks := splitChunks (munge text.data)
  wrapChunksFuel width (2 * sumLen chunks + 2 * chunks.length + 4) false chunks

/-!
## Utility functions of `app.py`

`parse_months`, `steps_from_months`, `compute_steps`, the `LEVEL_MAX_STEPS`
table, and the pure post-processing of `generate_roadmap` (the reply of the
chat-completion service is an opaque string, taken here as an arbitrary
input).  The digit class of the `\d+` pattern in the source is the full
Unicode decimal-digit category Nd (Python 3 `re` on a str pattern without
`re.ASCII`), not just ASCII `0-9`.
-/

/-- The base code points of the contiguous runs of Unicode decimal digits
(category Nd, the characters Python's `\d` matches on a str pattern):
each run holds the digits of value 0 through 9 at ten consecutive code
points starting at the base. -/
def digitRangeBases : List Nat :=
  [48, 1632, 1776, 1984, 2406, 2534, 2662, 2790, 2918, 3046, 3174, 3302,
   3430, 3558, 3664, 3792, 3872, 4160, 4240, 6112, 6160, 6470, 6608, 6784,
   6800, 6992, 7088, 7232, 7248, 42528, 43216, 43264, 43472, 43504, 43600,
   44016, 65296, 66720, 68912, 69734, 69872, 69942, 70096, 70384, 70736,
   70864, 71248, 71360, 71472, 71904, 72016, 72784, 73040, 73120, 92768,
   92864, 93008, 120782, 120792, 120802, 120812, 120822, 123200, 123632,
   125264, 130032]

/-- Membership in Unicode category Nd: the character class `\d` of the
pattern in `parse_months`. -/
def isDecimalDigit (c : Char) : Bool :=
  digitRangeBases.any (fun b => b ≤ c.toNat && c.toNat < b + 10)

/-- The decimal value of a Unicode decimal digit: its offset within its
run (0 for characters outside Nd, unused). -/
def digitVal (c : Char) : Nat :=
  match digitRangeBases.find? (fun b => b ≤ c.toNat && c.toNat < b + 10) with
  | some b => c.toNat - b
  | none => 0

/-- The leftmost match of the regular expression `\d+`: the first maximal
run of Unicode decimal digits of the character list, if any. -/
def digitRunSearch : List Char → Option (List Char)
  | [] => none
  | c :: cs =>
    if isDecimalDigit c then some (c :: cs.takeWhile isDecimalDigit)
    else digitRunSearch cs

/-- `int(...)` on a run of Unicode decimal digits: its base-10 value, each
character contributing its decimal digit value (so `int` accepts non-ASCII
digits, e.g. Arabic-Indic ones, exactly as CPython does). -/
def natOfDigits (l : List Char) : Nat :=
  l.foldl (fun n c => n * 10 + digitVal c) 0

/-- `parse_months(duration)`: the value of the first digit run in the
string, or the default 3 when the string holds no digit. -/
def parse_months (duration : String) : Nat :=
  match digitRunSearch duration.data with
  | some ds => natOfDigits ds
  | none => 3

/-- `steps_from_months(months) = max(3, months * 2)`. -/
def steps_from_months (months : Nat) : Nat := max 3 (months * 2)

/-- The `LEVEL_MAX_STEPS` dict; an unknown level raises `KeyError`, here
`none`. -/
def LEVEL_MAX_STEPS (level : String) : Option Nat :=
  if level = "Beginner" then some 6
  else if level = "Intermediate" then some 10
  else if level = "Advanced" then some 14
  else none

/-- `compute_steps(months, level) = min(steps_from_months(months),
LEVEL_MAX_STEPS[level])`. -/
def compute_steps (months : Nat) (level : String) : Option Nat :=
  (LEVEL_MAX_STEPS level).map (fun m => min (steps_from_months months) m)

/-- `s.strip()` (ASCII whitespace set). -/
def pyStrip (s : String) : String :=
  String.mk (((s.data.dropWhile isPyWs).reverse.dropWhile isPyWs).reverse)

/-- The list comprehension closing `generate_roadmap`: split the reply on
newlines, strip each piece, keep the non-empty ones, truncate to
`steps_count`. -/
def generate_roadmap_steps (content : String) (steps_count : Nat) :
    List String :=
  (((content.splitOn "\n").map pyStrip).filter (fun s => ¬ (s = ""))).take
    steps_count

/-!
## Drawing model

A render pass of `draw_roadmap` is recorded as a `RoadmapImage`: the canvas
dimensions chosen for `Image.new`, the list of box rectangles in the order
`draw_box` is invoked (one rounded rectangle painted per call, whose bounds
are also the returned value), the list of arrow (start, end) pairs in the
order `draw_arrow` is invoked, and the output path.  A rectangle is
`(left, top, right, bottom)`.  The constants bound by
`cx, top, gap, bw = 500, 60, 35, 620` in the source appear inline.
Colours only select paint and never influence geometry, so the `Theme`
record is carried but unused by the layout arithmetic.
-/

/-- One entry of the `THEMES` dict: background, box fill, line and text
colours. -/
structure Theme where
  bg : String
  boxColor : String
  lineColor : String
  textColor : String
deriving DecidableEq

/-- The `THEMES` dict of `app.py`; an unknown key raises `KeyError`, here
`none`. -/
def THEMES (name : String) : Option Theme :=
  if name = "Purple" then some ⟨"white", "#E1BEE7", "#6A1B9A", "black"⟩
  else if name = "Blue" then some ⟨"white", "#BBDEFB", "#1E88E5", "black"⟩
  else if name = "Dark" then some ⟨"#1E1E1E", "#2D2D2D", "#B0B0B0", "white"⟩
  else none

/-- `draw_box(draw, cx, y, w, text, theme)`: wrap the text at width 38,
compute `h = 34 + len(wrapped) * 18` and `x = cx - w // 2`, paint the
rounded rectangle `(x, y, x + w, y + h)` and the centred text lines, and
return those rectangle bounds. -/
def draw_box (cx y w : Int) (text : String) (theme : Theme) :
    Int × Int × Int × Int :=
  let wrapped := pyWrap 38 text
  let h : Int := 34 + (wrapped.length : Int) * 18
  let x := cx - Int.fdiv w 2
  (x, y, x + w, y + h)

/-- The placement loop of `draw_roadmap`: walk the steps with a vertical
cursor, call `draw_box` at the cursor, record the rectangle, advance the
cursor to `box[3] + gap` (gap 35). -/
def placeBoxes (theme : Theme) (y : Int) : List String → List (Int × Int × Int × Int)
  | [] => []
  | s :: rest =>
    let b := draw_box 500 y 620 s theme
    b :: placeBoxes theme (b.2.2.2 + 35) rest

/-- The arrow loop of `draw_roadmap`: for each consecutive rectangle pair,
an arrow from `((l+r)//2, bottom+6)` of the earlier box to `((l+r)//2,
top-6)` of the later one. -/
def mkArrows : List (Int × Int × Int × Int) → List ((Int × Int) × (Int × Int))
  | b1 :: b2 :: rest =>
    ((Int.fdiv (b1.1 + b1.2.2.1) 2, b1.2.2.2 + 6),
     (Int.fdiv (b2.1 + b2.2.2.1) 2, b2.2.1 - 6)) :: mkArrows (b2 :: rest)
  | _ => []

/-- The per-step summand of the height pre-computation loop:
`34 + len(textwrap.wrap(s, 38)) * 18 + gap` with gap 35. -/
def stepBlockHeight (s : String) : Int :=
  34 + ((pyWrap 38 s).length : Int) * 18 + 35

/-- The recorded outcome of one `draw_roadmap` render pass. -/
structure RoadmapImage where
  canvasW : Int
  height : Int
  boxes : List (Int × Int × Int × Int)
  arrows : List ((Int × Int) × (Int × Int))
  path : String
deriving DecidableEq

/-- `draw_roadmap(steps, theme_name)`: look the theme up (a bad key fails
here, before any drawing), pre-compute `height = top + 60 + Σ
stepBlockHeight`, allocate the 1000-wide canvas, run the placement and
arrow loops, save to `/tmp/roadmap.png` and return that path. -/
def draw_roadmap (steps : List String) (theme_name : String) :
    Option RoadmapImage :=
  match THEMES theme_name with
  | none => none
  | some theme =>
    let height : Int := 60 + 60 + (steps.map stepBlockHeight).sum
    let boxes := placeBoxes theme 60 steps
    some ⟨1000, height, boxes, mkArrows boxes, "/tmp/roadmap.png"⟩

/-- The value of the loop variable `y` of `draw_roadmap` after the
placement loop has walked the whole step list (the "final cursor"):
initialised to the top margin 60 by the caller, advanced to
`box[3] + gap` by each step. -/
def finalCursor (theme : Theme) (y : Int) : List String → Int
  | [] => y
  | s :: rest => finalCursor theme ((draw_box 500 y 620 s theme).2.2.2 + 35) rest

/-- The render pass recorded for steps `["a", "b", "c"]` under the `Blue`
theme (each step wraps to one line, so each box is 52 high). -/
def imgThreeSteps : RoadmapImage :=
  ⟨1000, 381,
   [(190, 60, 810, 112), (190, 147, 810, 199), (190, 234, 810, 286)],
   [((500, 118), (500, 141)), ((500, 205), (500, 228))],
   "/tmp/roadmap.png"⟩

/-- The render pass recorded for steps `["a", "b"]` under the `Dark`
theme. -/
def imgTwoSteps : RoadmapImage :=
  ⟨1000, 294,
   [(190, 60, 810, 112), (190, 147, 810, 199)],
   [((500, 118), (500, 141))],
   "/tmp/roadmap.png"⟩

/-!
## Arrow geometry

`draw_arrow` works in real arithmetic (`math.atan2`, `math.cos`,
`math.sin`); it is modelled over `ℝ` with the mathematical trigonometric
functions.  The head length and half width are the constants `hl, hw = 14,
7` of the source.
-/

/-- `math.atan2(y, x)`. -/
noncomputable def atan2 (y x : ℝ) : ℝ :=
  if 0 < x then Real.arctan (y / x)
  else if x < 0 ∧ 0 ≤ y then Real.arctan (y / x) + Real.pi
  else if x < 0 then Real.arctan (y / x) - Real.pi
  else if 0 < y then Real.pi / 2
  else if y < 0 then -(Real.pi / 2)
  else 0

/-- `angle = math.atan2(dy, dx)` for the segment from `s` to `e`. -/
noncomputable def arrowAngle (s e : ℝ × ℝ) : ℝ :=
  atan2 (e.2 - s.2) (e.1 - s.1)

/-- The first back-corner `p1` of the arrowhead drawn by `draw_arrow`. -/
noncomputable def arrowP1 (s e : ℝ × ℝ) : ℝ × ℝ :=
  (e.1 - 14 * Real.cos (arrowAngle s e) + 7 * Real.sin (arrowAngle s e),
   e.2 - 14 * Real.sin (arrowAngle s e) - 7 * Real.cos (arrowAngle s e))

/-- The second back-corner `p2` of the arrowhead drawn by `draw_arrow`. -/
noncomputable def arrowP2 (s e : ℝ × ℝ) : ℝ × ℝ :=
  (e.1 - 14 * Real.cos (arrowAngle s e) - 7 * Real.sin (arrowAngle s e),
   e.2 - 14 * Real.sin (arrowAngle s e) + 7 * Real.cos (arrowAngle s e))

/-- `draw_arrow(draw, start, end, color)`: the line segment it strokes and
the triangle `[end, p1, p2]` it fills. -/
noncomputable def draw_arrow (s e : ℝ × ℝ) :
    ((ℝ × ℝ) × (ℝ × ℝ)) × List (ℝ × ℝ) :=
  ((s, e), [e, arrowP1 s e, arrowP2 s e])

/-!
## Theorems
-/

/-- C6: for every centre x, top y, width, step text and theme, `draw_box`
computes the box height as the fixed vertical padding 34 plus 18 per
wrapped line (wrapping at width 38) and returns the rectangle bounds
`(cx - w/2, y, cx - w/2 + w, y + height)` (Python floor division) that it
drew. -/
theorem c6_draw_box_bounds :
    ∀ (cx y w : Int) (text : String) (th : Theme),
      draw_box cx y w text th
        = (cx - Int.fdiv w 2, y, cx - Int.fdiv w 2 + w,
           y + (34 + ((pyWrap 38 text).length : Int) * 18)) := by
  intro cx y w text th
  rfl

/-- C9: for every theme key outside the enumerated set
`{Purple, Blue, Dark}`, `draw_roadmap` fails with a lookup failure before
rendering anything, instead of silently defaulting to some theme. -/
theorem c9_unknown_theme_fails :
    ∀ (steps : List String) (t : String),
      t ≠ "Purple" → t ≠ "Blue" → t ≠ "Dark" →
      draw_roadmap steps t = none := by
  intro steps t h1 h2 h3
  simp [draw_roadmap, THEMES, h1, h2, h3]

/-- Witness for C9 at the concrete unknown key `"Green"`. -/
theorem c9_unknown_theme_fails_witness :
    draw_roadmap ["Learn variables"] "Green" = none :=
  c9_unknown_theme_fails ["Learn variables"] "Green" (by decide) (by decide)
    (by decide)

/-- C5: rendering an empty step list does not fail: for every valid theme
key, `draw_roadmap` produces an image of positive height 120 (only the
top and bottom margins), with no boxes and no arrows, and returns the
output path. -/
theorem c5_empty_steps :
    ∀ (t : String) (th : Theme), THEMES t = some th →
      draw_roadmap [] t
          = some ⟨1000, 120, [], [], "/tmp/roadmap.png"⟩ ∧
        (0 : Int) < 120 := by
  intro t th h
  refine ⟨?_, by norm_num⟩
  simp [draw_roadmap, h, placeBoxes, mkArrows]

/-- Witness for C5 at the concrete theme key `"Purple"`. -/
theorem c5_empty_steps_witness :
    draw_roadmap [] "Purple"
        = some ⟨1000, 120, [], [], "/tmp/roadmap.png"⟩ ∧
      (0 : Int) < 120 :=
  c5_empty_steps "Purple" ⟨"white", "#E1BEE7", "#6A1B9A", "black"⟩ (by decide)

/-- C8: for every duration string and known level, the requested step
count is `min(max(3, 2 * parsed-months), LEVEL_MAX_STEPS[level])`, and the
step list `generate_roadmap` builds from any model reply has at most that
many entries. -/
theorem c8_step_cap :
    ∀ (duration level : String) (maxSteps : Nat) (content : String),
      LEVEL_MAX_STEPS level = some maxSteps →
      compute_steps (parse_months duration) level
          = some (min (max 3 (2 * parse_months duration)) maxSteps) ∧
        ∀ n, compute_steps (parse_months duration) level = some n →
          (generate_roadmap_steps content n).length ≤ n := by
  intro duration level maxSteps content h
  constructor
  · have hm : steps_from_months (parse_months duration)
        = max 3 (2 * parse_months duration) := by
      simp [steps_from_months, Nat.mul_comm]
    simp [compute_steps, h, hm]
  · intro n _
    simp only [generate_roadmap_steps]
    exact List.length_take_le n _

/-- Witness for C8 at duration `"3 months"`, level `"Beginner"` and a
concrete seven-line reply. -/
theorem c8_step_cap_witness :
    compute_steps (parse_months "3 months") "Beginner"
        = some (min (max 3 (2 * parse_months "3 months")) 6) ∧
      (generate_roadmap_steps "a\nb\nc\nd\ne\nf\ng" 6).length ≤ 6 :=
  ⟨(c8_step_cap "3 months" "Beginner" 6 "a\nb\nc\nd\ne\nf\ng" (by decide)).1,
   (c8_step_cap "3 months" "Beginner" 6 "a\nb\nc\nd\ne\nf\ng" (by decide)).2 6
     (by decide)⟩

lemma placeBoxes_length (th : Theme) :
    ∀ (l : List String) (y : Int), (placeBoxes th y l).length = l.length := by
  intro l
  induction l with
  | nil => intro y; rfl
  | cons s rest ih => intro y; simp [placeBoxes, ih]

lemma mkArrows_length :
    ∀ (bs : List (Int × Int × Int × Int)),
      (mkArrows bs).length = bs.length - 1 := by
  intro bs
  induction bs with
  | nil => rfl
  | cons b1 rest ih =>
    cases rest with
    | nil => rfl
    | cons b2 rest2 =>
      simp only [mkArrows, List.length_cons] at ih ⊢
      omega

/-- C3: for every list of n steps rendered by `draw_roadmap`, exactly n
boxes are drawn and exactly `max(0, n - 1)` arrows are drawn (`n - 1` in
truncated natural subtraction). -/
theorem c3_box_and_arrow_counts :
    ∀ (steps : List String) (t : String) (img : RoadmapImage),
      draw_roadmap steps t = some img →
      img.boxes.length = steps.length ∧
        img.arrows.length = steps.length - 1 := by
  intro steps t img h
  unfold draw_roadmap at h
  cases hth : THEMES t with
  | none => rw [hth] at h; exact absurd h (by simp)
  | some th =>
    rw [hth] at h
    injection h with h
    rw [← h]
    refine ⟨placeBoxes_length th steps 60, ?_⟩
    rw [show (RoadmapImage.mk 1000 (60 + 60 + (steps.map stepBlockHeight).sum)
        (placeBoxes th 60 steps) (mkArrows (placeBoxes th 60 steps))
        "/tmp/roadmap.png").arrows = mkArrows (placeBoxes th 60 steps) from rfl]
    rw [mkArrows_length, placeBoxes_length]

/-- Witness for C3 at the concrete steps `["a", "b", "c"]`, theme
`"Blue"`: 3 boxes and 2 arrows. -/
theorem c3_box_and_arrow_counts_witness :
    imgThreeSteps.boxes.length = (["a", "b", "c"] : List String).length ∧
      imgThreeSteps.arrows.length = (["a", "b", "c"] : List String).length - 1 :=
  c3_box_and_arrow_counts ["a", "b", "c"] "Blue" imgThreeSteps (by decide)

lemma placeBoxes_consec (th : Theme) :
    ∀ (l : List String) (y : Int) (i : Nat), i + 1 < l.length →
      ((placeBoxes th y l).getD (i + 1) (0, 0, 0, 0)).2.1
        = ((placeBoxes th y l).getD i (0, 0, 0, 0)).2.2.2 + 35 := by
  intro l
  induction l with
  | nil => intro y i h; simp at h
  | cons s rest ih =>
    intro y i h
    cases i with
    | zero =>
      cases rest with
      | nil => simp at h
      | cons s2 r2 => rfl
    | succ j =>
      have h' : j + 1 < rest.length := by
        simpa using Nat.lt_of_succ_lt_succ h
      simp only [placeBoxes, List.getD_cons_succ]
      exact ih _ j h'

lemma placeBoxes_shape (th : Theme) :
    ∀ (l : List String) (y : Int) (i : Nat), i < l.length →
      ∃ y0, (placeBoxes th y l).getD i (0, 0, 0, 0)
        = draw_box 500 y0 620 (l.getD i "") th := by
  intro l
  induction l with
  | nil => intro y i h; simp at h
  | cons s rest ih =>
    intro y i h
    cases i with
    | zero => exact ⟨y, rfl⟩
    | succ j =>
      have h' : j < rest.length := Nat.lt_of_succ_lt_succ h
      simp only [placeBoxes, List.getD_cons_succ]
      exact ih _ j h'

lemma mkArrows_getD :
    ∀ (bs : List (Int × Int × Int × Int)) (i : Nat), i + 1 < bs.length →
      (mkArrows bs).getD i ((0, 0), (0, 0))
        = ((Int.fdiv ((bs.getD i (0, 0, 0, 0)).1 + (bs.getD i (0, 0, 0, 0)).2.2.1) 2,
            (bs.getD i (0, 0, 0, 0)).2.2.2 + 6),
           (Int.fdiv ((bs.getD (i + 1) (0, 0, 0, 0)).1
              + (bs.getD (i + 1) (0, 0, 0, 0)).2.2.1) 2,
            (bs.getD (i + 1) (0, 0, 0, 0)).2.1 - 6)) := by
  intro bs
  induction bs with
  | nil => intro i h; simp at h
  | cons b1 rest ih =>
    intro i h
    cases rest with
    | nil => simp at h
    | cons b2 r2 =>
      cases i with
      | zero => rfl
      | succ j =>
        have h' : j + 1 < (b2 :: r2).length := Nat.lt_of_succ_lt_succ h
        simp only [mkArrows, List.getD_cons_succ]
        exact ih j h'

/-- C4: `draw_roadmap` stacks boxes top-to-bottom in the supplied step
order — box i+1's top is box i's bottom plus the fixed gap 35, every box
is centred on x = 500, and box i's height matches step i's wrapped line
count — and arrow i runs from the bottom-centre of box i offset down by
6 to the top-centre of box i+1 offset up by 6, never skipping or
reordering. -/
theorem c4_ordering_and_arrows :
    ∀ (steps : List String) (t : String) (img : RoadmapImage) (i : Nat),
      draw_roadmap steps t = some img → i + 1 < img.boxes.length →
      ((img.boxes.getD (i + 1) (0, 0, 0, 0)).2.1
          = (img.boxes.getD i (0, 0, 0, 0)).2.2.2 + 35) ∧
        (Int.fdiv ((img.boxes.getD i (0, 0, 0, 0)).1
            + (img.boxes.getD i (0, 0, 0, 0)).2.2.1) 2 = 500) ∧
        (Int.fdiv ((img.boxes.getD (i + 1) (0, 0, 0, 0)).1
            + (img.boxes.getD (i + 1) (0, 0, 0, 0)).2.2.1) 2 = 500) ∧
        ((img.boxes.getD i (0, 0, 0, 0)).2.2.2
            - (img.boxes.getD i (0, 0, 0, 0)).2.1
          = 34 + ((pyWrap 38 (steps.getD i "")).length : Int) * 18) ∧
        ((img.boxes.getD (i + 1) (0, 0, 0, 0)).2.2.2
            - (img.boxes.getD (i + 1) (0, 0, 0, 0)).2.1
          = 34 + ((pyWrap 38 (steps.getD (i + 1) "")).length : Int) * 18) ∧
        img.arrows.getD i ((0, 0), (0, 0))
          = ((500, (img.boxes.getD i (0, 0, 0, 0)).2.2.2 + 6),
             (500, (img.boxes.getD (i + 1) (0, 0, 0, 0)).2.1 - 6)) := by
  intro steps t img i h hi
  unfold draw_roadmap at h
  cases hth : THEMES t with
  | none => rw [hth] at h; exact absurd h (by simp)
  | some th =>
    rw [hth] at h
    injection h with h
    have hboxes : img.boxes = placeBoxes th 60 steps := by rw [← h]
    have harrows : img.arrows = mkArrows (placeBoxes th 60 steps) := by rw [← h]
    rw [hboxes, placeBoxes_length] at hi
    have hcenter : ∀ (j : Nat), j < steps.length →
        Int.fdiv (((placeBoxes th 60 steps).getD j (0, 0, 0, 0)).1
          + ((placeBoxes th 60 steps).getD j (0, 0, 0, 0)).2.2.1) 2 = 500 := by
      intro j hj
      obtain ⟨y0, hy0⟩ := placeBoxes_shape th steps 60 j hj
      rw [hy0]
      show Int.fdiv ((500 - Int.fdiv 620 2) + (500 - Int.fdiv 620 2 + 620)) 2 = 500
      decide
    have hheight : ∀ (j : Nat), j < steps.length →
        ((placeBoxes th 60 steps).getD j (0, 0, 0, 0)).2.2.2
            - ((placeBoxes th 60 steps).getD j (0, 0, 0, 0)).2.1
          = 34 + ((pyWrap 38 (steps.getD j "")).length : Int) * 18 := by
      intro j hj
      obtain ⟨y0, hy0⟩ := placeBoxes_shape th steps 60 j hj
      rw [hy0]
      show (y0 + (34 + ((pyWrap 38 (steps.getD j "")).length : Int) * 18)) - y0
          = 34 + ((pyWrap 38 (steps.getD j "")).length : Int) * 18
      ring
    have hi0 : i < steps.length := Nat.lt_of_succ_lt hi
    refine ⟨?_, ?_, ?_, ?_, ?_, ?_⟩
    · rw [hboxes]; exact placeBoxes_consec th steps 60 i hi
    · rw [hboxes]; exact hcenter i hi0
    · rw [hboxes]; exact hcenter (i + 1) hi
    · rw [hboxes]; exact hheight i hi0
    · rw [hboxes]; exact hheight (i + 1) hi
    · rw [hboxes, harrows]
      rw [mkArrows_getD (placeBoxes th 60 steps) i
        (by rw [placeBoxes_length]; exact hi)]
      rw [hcenter i hi0, hcenter (i + 1) hi]

/-- Witness for C4 at the concrete steps `["a", "b"]`, theme `"Dark"`,
pair index 0: the second box starts one gap below the first. -/
theorem c4_ordering_and_arrows_witness :
    (imgTwoSteps.boxes.getD 1 (0, 0, 0, 0)).2.1
        = (imgTwoSteps.boxes.getD 0 (0, 0, 0, 0)).2.2.2 + 35 :=
  (c4_ordering_and_arrows ["a", "b"] "Dark" imgTwoSteps 0 (by decide)
    (by decide)).1

lemma stepBlockHeight_nonneg (s : String) : 0 ≤ stepBlockHeight s := by
  unfold stepBlockHeight
  have : (0 : Int) ≤ ((pyWrap 38 s).length : Int) := Int.ofNat_nonneg _
  omega

lemma sum_stepBlockHeight_nonneg (l : List String) :
    0 ≤ (l.map stepBlockHeight).sum := by
  refine List.sum_nonneg ?_
  intro x hx
  obtain ⟨s, _, rfl⟩ := List.mem_map.mp hx
  exact stepBlockHeight_nonneg s

lemma finalCursor_eq_sum (th : Theme) :
    ∀ (l : List String) (y : Int),
      finalCursor th y l = y + (l.map stepBlockHeight).sum := by
  intro l
  induction l with
  | nil => intro y; simp [finalCursor]
  | cons s rest ih =>
    intro y
    show finalCursor th ((draw_box 500 y 620 s th).2.2.2 + 35) rest
        = y + (stepBlockHeight s + (rest.map stepBlockHeight).sum)
    rw [ih]
    show (y + (34 + ((pyWrap 38 s).length : Int) * 18)) + 35
          + (rest.map stepBlockHeight).sum
        = y + (stepBlockHeight s + (rest.map stepBlockHeight).sum)
    unfold stepBlockHeight
    ring

lemma placeBoxes_bottom_le (th : Theme) :
    ∀ (l : List String) (y : Int) (b : Int × Int × Int × Int),
      b ∈ placeBoxes th y l → b.2.2.2 + 35 ≤ y + (l.map stepBlockHeight).sum := by
  intro l
  induction l with
  | nil => intro y b hb; simp [placeBoxes] at hb
  | cons s rest ih =>
    intro y b hb
    simp only [placeBoxes, List.mem_cons] at hb
    cases hb with
    | inl hb =>
      rw [hb]
      show (y + (34 + ((pyWrap 38 s).length : Int) * 18)) + 35
          ≤ y + ((s :: rest).map stepBlockHeight).sum
      have h1 : 0 ≤ (rest.map stepBlockHeight).sum :=
        sum_stepBlockHeight_nonneg rest
      simp only [List.map_cons, List.sum_cons]
      unfold stepBlockHeight at h1 ⊢
      omega
    | inr hb =>
      have := ih ((draw_box 500 y 620 s th).2.2.2 + 35) b hb
      show b.2.2.2 + 35 ≤ y + ((s :: rest).map stepBlockHeight).sum
      simp only [List.map_cons, List.sum_cons]
      have hbox : (draw_box 500 y 620 s th).2.2.2 + 35
          = y + stepBlockHeight s := by
        show (y + (34 + ((pyWrap 38 s).length : Int) * 18)) + 35
            = y + stepBlockHeight s
        unfold stepBlockHeight
        ring
      rw [hbox] at this
      omega

/-- C1 (amended): the canvas height computed by `draw_roadmap` is the top
margin 60 plus the sum over all steps of (box height + gap) plus a bottom
margin of 60; the placement loop's final cursor is the computed height
minus the bottom margin (not the height itself), so no box is clipped and
the blank canvas beyond the last box is exactly one gap plus the bottom
margin. -/
theorem c1_height_invariant_amended :
    ∀ (steps : List String) (t : String) (th : Theme) (img : RoadmapImage),
      THEMES t = some th → draw_roadmap steps t = some img →
      img.height = 60 + (steps.map stepBlockHeight).sum + 60 ∧
        finalCursor th 60 steps = img.height - 60 ∧
        ∀ b ∈ img.boxes, b.2.2.2 + 35 ≤ img.height - 60 := by
  intro steps t th img hth h
  unfold draw_roadmap at h
  rw [hth] at h
  injection h with h
  have hh : img.height = 60 + 60 + (steps.map stepBlockHeight).sum := by
    rw [← h]
  have hboxes : img.boxes = placeBoxes th 60 steps := by rw [← h]
  refine ⟨by rw [hh]; ring, ?_, ?_⟩
  · rw [finalCursor_eq_sum, hh]; ring
  · intro b hb
    rw [hboxes] at hb
    have := placeBoxes_bottom_le th steps 60 b hb
    rw [hh]
    omega

/-- Counterexample to C1 as stated: on the empty step list the computed
canvas height is 120, not the claimed top margin plus empty sum (60), and
the placement loop's final cursor 60 does not coincide with the computed
height 120 — the code adds a bottom margin of 60 that the claim omits. -/
theorem c1_height_invariant_counterexample :
    (draw_roadmap [] "Purple").map RoadmapImage.height = some 120 ∧
      ¬ ((120 : Int) = 60 + (([] : List String).map stepBlockHeight).sum) ∧
      finalCursor ⟨"white", "#E1BEE7", "#6A1B9A", "black"⟩ 60 [] = 60 ∧
      ¬ ((60 : Int) = 120) := by
  refine ⟨by decide, by decide, by decide, by decide⟩

/-- Witness for C1 (amended) at the concrete steps `["a"]`, theme
`"Purple"`: height 207 = 60 + (52 + 35) + 60 and the final cursor is
147 = 207 - 60. -/
theorem c1_height_invariant_amended_witness :
    (draw_roadmap ["a"] "Purple").map RoadmapImage.height
        = some (60 + ((["a"] : List String).map stepBlockHeight).sum + 60) ∧
      finalCursor ⟨"white", "#E1BEE7", "#6A1B9A", "black"⟩ 60 ["a"]
        = (60 + ((["a"] : List String).map stepBlockHeight).sum + 60) - 60 := by
  have h := c1_height_invariant_amended ["a"] "Purple"
    ⟨"white", "#E1BEE7", "#6A1B9A", "black"⟩
    ⟨1000, 207, [(190, 60, 810, 112)], [], "/tmp/roadmap.png"⟩
    (by decide) (by decide)
  refine ⟨?_, ?_⟩
  · rw [show (draw_roadmap ["a"] "Purple").map RoadmapImage.height
        = some (207 : Int) from by decide]
    rw [← h.1]
  · rw [← h.1]
    exact h.2.1

lemma takeGreedy_sum (width : Nat) :
    ∀ (l : List (List Char)) (k : Nat), k ≤ width →
      k + sumLen (takeGreedy width k l).1 ≤ width := by
  intro l
  induction l with
  | nil => intro k hk; simpa [takeGreedy, sumLen] using hk
  | cons c rest ih =>
    intro k hk
    by_cases h : k + c.length ≤ width
    · have := ih (k + c.length) h
      simp only [takeGreedy, h, if_true, sumLen, List.map_cons, List.sum_cons]
      simp only [sumLen] at this
      omega
    · simp [takeGreedy, h, sumLen, hk]

lemma rfindHyphen_lt (l : List Char) (h : Nat) :
    rfindHyphen l = some h → h < l.length := by
  intro hf
  unfold rfindHyphen at hf
  have hm := List.mem_of_find?_eq_some hf
  rw [List.mem_reverse] at hm
  exact List.mem_range.mp hm

lemma longWordEnd_le (chunk : List Char) (sl : Nat) :
    longWordEnd chunk sl ≤ sl := by
  unfold longWordEnd
  split
  · split
    · next hy heq =>
      split
      · have hlt := rfindHyphen_lt _ hy heq
        rw [List.length_take] at hlt
        omega
      · exact le_refl _
    · exact le_refl _
  · exact le_refl _

lemma sumLen_dropLast : ∀ (l : List (List Char)), sumLen l.dropLast ≤ sumLen l := by
  intro l
  induction l with
  | nil => exact le_refl 0
  | cons c rest ih =>
    cases rest with
    | nil => simp [sumLen]
    | cons d r2 =>
      simp only [List.dropLast_cons₂, sumLen, List.map_cons, List.sum_cons]
        at ih ⊢
      omega

lemma dropTrailingWs_sum (cur : List (List Char)) :
    sumLen (dropTrailingWs cur) ≤ sumLen cur := by
  unfold dropTrailingWs
  cases h : cur.getLast? with
  | none => exact le_refl _
  | some c =>
    by_cases hw : isWsChunk c
    · simp only [hw, if_true]
      exact sumLen_dropLast cur
    · simp only [hw, if_false]
      exact le_refl _

lemma handleLongWord_sum (width : Nat) (cur rest : List (List Char))
    (h1 : 1 ≤ width) (hc : sumLen cur ≤ width) :
    sumLen (handleLongWord width cur rest).1 ≤ width := by
  unfold handleLongWord
  cases rest with
  | nil => exact hc
  | cons c rs =>
    by_cases h : width < c.length
    · simp only [h, if_true]
      have hnw : ¬ (width < 1) := by omega
      simp only [hnw, if_false]
      have he : longWordEnd c (width - sumLen cur) ≤ width - sumLen cur :=
        longWordEnd_le c (width - sumLen cur)
      have ht : (c.take (longWordEnd c (width - sumLen cur))).length
          ≤ longWordEnd c (width - sumLen cur) := List.length_take_le _ _
      simp only [sumLen, List.map_append, List.sum_append, List.map_cons,
        List.sum_cons, List.map_nil, List.sum_nil] at he ht hc ⊢
      omega
    · simp only [h, if_false]
      exact hc

lemma wrapStep_line_le (width : Nat) (hl : Bool) (chunks : List (List Char))
    (line : List Char) (rest : List (List Char)) (h1 : 1 ≤ width)
    (h : wrapStep width hl chunks = (some line, rest)) :
    line.length ≤ width := by
  unfold wrapStep at h
  have hg : sumLen (takeGreedy width 0 (dropLeadingWs hl chunks)).1 ≤ width := by
    have := takeGreedy_sum width (dropLeadingWs hl chunks) 0 (by omega)
    omega
  have hh : sumLen (handleLongWord width
      (takeGreedy width 0 (dropLeadingWs hl chunks)).1
      (takeGreedy width 0 (dropLeadingWs hl chunks)).2).1 ≤ width :=
    handleLongWord_sum width _ _ h1 hg
  have hd : sumLen (dropTrailingWs (handleLongWord width
      (takeGreedy width 0 (dropLeadingWs hl chunks)).1
      (takeGreedy width 0 (dropLeadingWs hl chunks)).2).1) ≤ width :=
    le_trans (dropTrailingWs_sum _) hh
  by_cases he : (dropTrailingWs (handleLongWord width
      (takeGreedy width 0 (dropLeadingWs hl chunks)).1
      (takeGreedy width 0 (dropLeadingWs hl chunks)).2).1).isEmpty
  · simp only [he, if_true] at h
    exact absurd (congrArg Prod.fst h) (by simp)
  · simp only [he, if_false] at h
    have hline := congrArg Prod.fst h
    simp only at hline
    injection hline with hline
    rw [← hline]
    rw [List.length_flatten]
    exact hd

lemma wrapChunksFuel_le (width : Nat) (h1 : 1 ≤ width) :
    ∀ (fuel : Nat) (hl : Bool) (chunks : List (List Char)) (l : List Char),
      l ∈ wrapChunksFuel width fuel hl chunks → l.length ≤ width := by
  intro fuel
  induction fuel with
  | zero => intro hl chunks l hm; simp [wrapChunksFuel] at hm
  | succ f ih =>
    intro hl chunks l hm
    cases chunks with
    | nil => simp [wrapChunksFuel] at hm
    | cons c cs =>
      simp only [wrapChunksFuel] at hm
      cases hs : (wrapStep width hl (c :: cs)).1 with
      | some line =>
        rw [hs] at hm
        simp only [List.mem_cons] at hm
        cases hm with
        | inl hm =>
          rw [hm]
          exact wrapStep_line_le width hl (c :: cs) line
            (wrapStep width hl (c :: cs)).2 h1 (by rw [← hs])
        | inr hm => exact ih true _ l hm
      | none =>
        rw [hs] at hm
        exact ih hl _ l hm

/-- C2 (amended): for every input string and positive width bound, every
line produced by the text segmenter (`textwrap.wrap` with the defaults
used by `app.py`) has character length at most the width bound — a single
word longer than the bound is broken at the bound (`break_long_words`),
not emitted as one unsplit line. -/
theorem c2_segmenter_width_amended :
    ∀ (width : Nat) (text : String), 1 ≤ width →
      ∀ l ∈ pyWrap width text, l.length ≤ width := by
  intro width text h1 l hm
  simp only [pyWrap] at hm
  exact wrapChunksFuel_le width h1 _ _ _ l hm

/-- Counterexample to C2 as stated: the 60-character token wrapped at
width 38 is split into a 38-character line and a 22-character line, not
emitted as one unsplit 60-character line. -/
theorem c2_segmenter_width_counterexample :
    pyWrap 38 (String.mk (List.replicate 60 'a'))
        = [List.replicate 38 'a', List.replicate 22 'a'] ∧
      ¬ pyWrap 38 (String.mk (List.replicate 60 'a'))
        = [List.replicate 60 'a'] := by
  exact ⟨by decide, by decide⟩

/-- Witness for C2 (amended) at width 38 and the 60-character token: its
first output line has length 38 ≤ 38. -/
theorem c2_segmenter_width_amended_witness :
    (List.replicate 38 'a').length ≤ 38 :=
  c2_segmenter_width_amended 38 (String.mk (List.replicate 60 'a'))
    (by decide) (List.replicate 38 'a') (by decide)

/-- C7: for the vertical segment from (500,100) to (500,200) the two
arrowhead back-corners are (507,186) and (493,186) — symmetric about
x = 500 at distance 7, offset 14 upward from the end point — and for
every segment, the midpoint of the two back-corners is the end point
moved back by the head length 14 along the direction
`(cos angle, sin angle)`, the corners differ by 2·7 times the unit
perpendicular `(sin angle, -cos angle)`, and that perpendicular is
orthogonal to the direction and has unit norm. -/
theorem c7_arrowhead_geometry :
    (arrowP1 ((500 : ℝ), (100 : ℝ)) (500, 200) = (507, 186) ∧
      arrowP2 ((500 : ℝ), (100 : ℝ)) (500, 200) = (493, 186)) ∧
    ∀ s e : ℝ × ℝ,
      (arrowP1 s e).1 + (arrowP2 s e).1
          = 2 * (e.1 - 14 * Real.cos (arrowAngle s e)) ∧
        (arrowP1 s e).2 + (arrowP2 s e).2
          = 2 * (e.2 - 14 * Real.sin (arrowAngle s e)) ∧
        (arrowP1 s e).1 - (arrowP2 s e).1
          = 2 * (7 * Real.sin (arrowAngle s e)) ∧
        (arrowP1 s e).2 - (arrowP2 s e).2
          = 2 * (7 * (-Real.cos (arrowAngle s e))) ∧
        Real.sin (arrowAngle s e) * Real.cos (arrowAngle s e)
            + (-Real.cos (arrowAngle s e)) * Real.sin (arrowAngle s e) = 0 ∧
        (Real.sin (arrowAngle s e)) ^ 2
            + (-Real.cos (arrowAngle s e)) ^ 2 = 1 := by
  constructor
  · have ha : arrowAngle ((500 : ℝ), (100 : ℝ)) (500, 200) = Real.pi / 2 := by
      unfold arrowAngle atan2
      norm_num
    constructor
    · unfold arrowP1
      rw [ha, Real.cos_pi_div_two, Real.sin_pi_div_two]
      norm_num
    · unfold arrowP2
      rw [ha, Real.cos_pi_div_two, Real.sin_pi_div_two]
      norm_num
  · intro s e
    refine ⟨?_, ?_, ?_, ?_, ?_, ?_⟩
    · unfold arrowP1 arrowP2; ring
    · unfold arrowP1 arrowP2; ring
    · unfold arrowP1 arrowP2; ring
    · unfold arrowP1 arrowP2; ring
    · ring
    · rw [neg_pow, show ((-1 : ℝ)) ^ 2 = 1 by norm_num, one_mul,
        Real.sin_sq_add_cos_sq]

end Roadmap
